import Mathlib

/-!
Verification of the Local Council Data Explorer's data-aggregation and
caching layer, shallowly embedded in Lean 4.

Sources embedded here:
- the TTL cache (`CacheEntry.is_expired`, `InMemoryCache.get` / `set`)
  from `docs/BACKEND_STRUCTURE.md`;
- the cache key builder (`InMemoryCache.generate_key`) pseudocode from the
  System Flow document;
- the default `Settings` TTL constants from `docs/BACKEND_STRUCTURE.md`;
- the bins router precondition and `BinsService.get_bin_collections`
  pattern from `docs/BACKEND_STRUCTURE.md`;
- the air-quality fallback chain and pollutant transform, whose service
  module is not part of the shipped sources and is modelled from the spec;
- the frontend fetchers `fetchPlanningApplications` (planning/api.ts),
  `fetchBinCollections` (bins/api.ts) and `fetchAirQuality` (air/api.ts).

Timestamps are modelled as natural numbers (seconds); the float boundary
case `now == expires_at` is exactly representable for integral times.
-/

namespace LCDE

/-- Association-list find: the first binding of `key`, mirroring a Python
dict lookup (caches built by `cacheSet` never hold duplicate keys). -/
def assocFind {α : Type} : List (String × α) → String → Option α
  | [], _ => none
  | (k, a) :: rest, key => if k = key then some a else assocFind rest key

/-- Association-list erase: removes every binding of `key`, mirroring
`del self._cache[key]` on a Python dict (which cannot hold duplicates). -/
def assocErase {α : Type} : List (String × α) → String → List (String × α)
  | [], _ => []
  | (k, a) :: rest, key =>
      if k = key then assocErase rest key else (k, a) :: assocErase rest key

/-- Association-list overwrite: last writer wins, mirroring
`self._cache[key] = entry` on a Python dict. -/
def assocPut {α : Type} (c : List (String × α)) (key : String) (a : α) :
    List (String × α) :=
  assocErase c key ++ [(key, a)]

/-- Cache entry, from `docs/BACKEND_STRUCTURE.md`: `CacheEntry` with
`value`, `expires_at`, `created_at`. -/
structure CacheEntry (V : Type) where
  value : V
  expires_at : Nat
  created_at : Nat
deriving DecidableEq, Repr

/-- The in-memory cache state: the `_cache : Dict[str, CacheEntry]` field
of `InMemoryCache`. -/
def Cache (V : Type) : Type := List (String × CacheEntry V)

instance (V : Type) [DecidableEq V] : DecidableEq (Cache V) :=
  inferInstanceAs (DecidableEq (List (String × CacheEntry V)))

/-- From the source: `CacheEntry.is_expired` returns
`time.time() > self.expires_at`. -/
def CacheEntry.is_expired {V : Type} (e : CacheEntry V) (now : Nat) : Bool :=
  now > e.expires_at

/-- From the source: `InMemoryCache.get` returns the value if the entry
exists and is not expired; an expired entry is deleted as a side effect.
Returns the optional value together with the cache state after the call. -/
def cacheGet {V : Type} (c : Cache V) (now : Nat) (key : String) :
    Option V × Cache V :=
  match assocFind c key with
  | none => (none, c)
  | some e =>
      if e.is_expired now then (none, assocErase c key)
      else (some e.value, c)

/-- From the source: `InMemoryCache.set` stores
`CacheEntry(value, expires_at = now + ttl, created_at = now)`,
unconditionally overwriting any existing entry. -/
def cacheSet {V : Type} (c : Cache V) (now : Nat) (key : String) (v : V)
    (ttl : Nat) : Cache V :=
  assocPut c key ⟨v, now + ttl, now⟩

/-- Keep the parameters whose value is present, mirroring the
`if v is not None` filter of `InMemoryCache.generate_key`. -/
def presentParams : List (String × Option String) → List (String × String)
  | [] => []
  | (k, some v) :: rest => (k, v) :: presentParams rest
  | (_, none) :: rest => presentParams rest

/-- Lexicographic comparison of character lists by Unicode code point,
the order Python's `sorted` uses on strings. -/
def charListLe : List Char → List Char → Bool
  | [], _ => true
  | _ :: _, [] => false
  | a :: as, b :: bs =>
      if a.toNat = b.toNat then charListLe as bs
      else decide (a.toNat < b.toNat)

/-- Code-point lexicographic order on strings (Python's string order). -/
def strLe (a b : String) : Bool := charListLe a.data b.data

/-- Name order on `(name, value)` parameter pairs. -/
def paramLe (p q : String × String) : Prop := strLe p.1 q.1 = true

instance : DecidableRel paramLe := fun p q =>
  inferInstanceAs (Decidable (strLe p.1 q.1 = true))

/-- Sort the present parameters by name, mirroring
`sorted(kwargs.items())` (keyword-argument names are unique, so sorting
by name alone agrees with Python's tuple order). -/
def sortParams (l : List (String × String)) : List (String × String) :=
  List.insertionSort paramLe l

/-- From the source (System Flow, `InMemoryCache.generate_key`): start
from the domain's name, append `k=v` for every non-`None` keyword
argument in name order, and join the parts with `:`. -/
def generate_key (pfx : String) (params : List (String × Option String)) :
    String :=
  String.intercalate ":"
    (pfx :: (sortParams (presentParams params)).map (fun p => p.1 ++ "=" ++ p.2))

/-- Default settings, from `docs/BACKEND_STRUCTURE.md` (`config.py`):
cache TTLs in seconds. -/
structure Settings where
  MOCK_MODE : Bool
  CACHE_TTL_BINS : Nat
  CACHE_TTL_PLANNING : Nat
  CACHE_TTL_AIR_QUALITY : Nat
deriving DecidableEq, Repr

/-- The default configuration values from `config.py`:
`CACHE_TTL_BINS = 3600`, `CACHE_TTL_PLANNING = 1800`,
`CACHE_TTL_AIR_QUALITY = 600`, `MOCK_MODE = True`. -/
def defaultSettings : Settings := ⟨true, 3600, 1800, 600⟩

/-- Tagged result of one adapter invocation (spec section 3,
`FetchOutcome`; the doc's service code signals the upstream cases by
raising `httpx` exceptions, which the router maps to typed responses). -/
inductive FetchOutcome (V : Type) where
  | success (v : V)
  | upstreamNotFound
  | upstreamUnavailable
deriving DecidableEq, Repr

/-- Typed failure surfaced by the aggregation layer to its caller. -/
inductive FetchError where
  | invalidRequest
  | upstreamNotFound
  | upstreamUnavailable
deriving DecidableEq, Repr

/-- Observable result of one `getOrFetch` call: the outcome, the cache
state after the call, and spy counters for cache reads and adapter
invocations (the spec's mock counter). -/
structure GFResult (V : Type) where
  outcome : Except FetchError V
  cache : Cache V
  cacheReads : Nat
  adapterCalls : Nat

instance {ε α : Type} [DecidableEq ε] [DecidableEq α] :
    DecidableEq (Except ε α)
  | .ok a, .ok b => decidable_of_iff (a = b) (by simp)
  | .ok _, .error _ => isFalse (by simp)
  | .error _, .ok _ => isFalse (by simp)
  | .error e, .error f => decidable_of_iff (e = f) (by simp)

instance (V : Type) [DecidableEq V] : DecidableEq (GFResult V) := fun a b =>
  decidable_of_iff (a.outcome = b.outcome ∧ a.cache = b.cache ∧
    a.cacheReads = b.cacheReads ∧ a.adapterCalls = b.adapterCalls)
    (by cases a; cases b; simp)

/-- Modelled from the spec: the Aggregation Service `getOrFetch`
(spec section 4.4), whose concrete per-domain service modules are not
part of the shipped sources; the cache interaction follows the
`BinsService.get_bin_collections` pattern of `docs/BACKEND_STRUCTURE.md`:
validate, build the key, return a live cached value without touching the
adapter, otherwise invoke the adapter once and cache only a success. -/
def getOrFetch {Q V : Type} (valid : Q → Bool) (pfx : String)
    (keyParams : Q → List (String × Option String))
    (adapter : Q → FetchOutcome V) (ttl : Nat)
    (cache : Cache V) (now : Nat) (q : Q) : GFResult V :=
  if valid q then
    match cacheGet cache now (generate_key pfx (keyParams q)) with
    | (some v, c) => ⟨.ok v, c, 1, 0⟩
    | (none, c) =>
        match adapter q with
        | .success v =>
            ⟨.ok v, cacheSet c now (generate_key pfx (keyParams q)) v ttl, 1, 1⟩
        | .upstreamNotFound => ⟨.error .upstreamNotFound, c, 1, 1⟩
        | .upstreamUnavailable => ⟨.error .upstreamUnavailable, c, 1, 1⟩
  else ⟨.error .invalidRequest, cache, 0, 0⟩

/-- Python truthiness of an optional string: `None` and the empty string
are falsy, as in the router's `if not postcode and not uprn` check. -/
def truthyStr : Option String → Bool
  | none => false
  | some s => !(s == "")

/-- The bins router precondition from `docs/BACKEND_STRUCTURE.md`:
postcode or uprn must be present (non-falsy). -/
def binsValid (q : Option String × Option String) : Bool :=
  truthyStr q.1 || truthyStr q.2

/-- Cache-key parameters of a bins query, from
`generate_key("bins", postcode=postcode, uprn=uprn)`. -/
def binsKeyParams (q : Option String × Option String) :
    List (String × Option String) :=
  [("postcode", q.1), ("uprn", q.2)]

/-- The bins endpoint: router validation followed by the cached service
fetch, from `docs/BACKEND_STRUCTURE.md` (`get_bin_collections` router and
`BinsService.get_bin_collections`), with `CACHE_TTL_BINS` from
`config.py`. -/
def get_bin_collections {V : Type} (adapter :
    (Option String × Option String) → FetchOutcome V)
    (cache : Cache V) (now : Nat) (postcode uprn : Option String) :
    GFResult V :=
  getOrFetch binsValid "bins" binsKeyParams adapter
    defaultSettings.CACHE_TTL_BINS cache now (postcode, uprn)

/-- One per-station pollutant reading from the provider's `Species`
entries: `@SpeciesCode`, `@Value`, units, and the DAQI index parsed from
`@AirQualityIndex` (System Flow, Air Quality Data Transformation). -/
structure Reading where
  name : String
  value : String
  units : String
  index : Nat
deriving DecidableEq, Repr

/-- Normalized pollutant entry of an `AirQualitySnapshot`
(spec section 6). -/
structure Pollutant where
  name : String
  value : String
  units : String
  index : Nat
  band : String
deriving DecidableEq, Repr

/-- Normalized air-quality result shape, from the frontend air types and
spec section 6: `AirQualitySnapshot{area, maxDaqi, summary, pollutants,
forecastDate?}`. -/
structure AirSnapshot where
  area : String
  maxDaqi : Nat
  summary : String
  pollutants : List Pollutant
  forecastDate : Option String
deriving DecidableEq, Repr

/-- Modelled from the spec: the DAQI band table of spec section 6,
1-3 Low, 4-6 Moderate, 7-9 High, 10 Very High (the transform's band
mapping is not part of the shipped sources). -/
def daqiBand (i : Nat) : String :=
  if i ≤ 3 then "Low"
  else if i ≤ 6 then "Moderate"
  else if i ≤ 9 then "High"
  else "Very High"

/-- One scan step of the worst-reading search: keep the better of the
current reading (when its name matches) and the best so far. -/
def worstStep (r : Reading) (name : String) : Option Reading → Option Reading
  | none => if r.name = name then some r else none
  | some q =>
      if r.name = name then
        if q.index ≥ r.index then some q else some r
      else some q

/-- The worst (highest-index) reading for one pollutant name, scanning
the station readings; ties keep the later-scanned reading. -/
def worstFor (name : String) : List Reading → Option Reading
  | [] => none
  | r :: rest => worstStep r name (worstFor name rest)

/-- Modelled from the spec: collapse repeated pollutant entries to the
single worst reading per pollutant name (spec section 4.3 and System
Flow transformation step 3; the air service module is not part of the
shipped sources). One entry per distinct pollutant name. -/
def dedupReadings (l : List Reading) : List Reading :=
  ((l.map (fun r => r.name)).dedup).filterMap (fun n => worstFor n l)

/-- Maximum DAQI index over a list of readings (0 when empty). -/
def maxIndexOf (l : List Reading) : Nat :=
  l.foldr (fun r acc => max r.index acc) 0

/-- Modelled from the spec: the air-quality transform (System Flow
transformation steps 3-5; module not in the shipped sources) —
deduplicate, compute `max_daqi` over the deduplicated set, derive the
summary band and the per-pollutant bands. -/
def airTransform (area : String) (readings : List Reading)
    (fd : Option String) : AirSnapshot :=
  let deduped := dedupReadings readings
  ⟨area, maxIndexOf deduped, daqiBand (maxIndexOf deduped),
    deduped.map (fun r => ⟨r.name, r.value, r.units, r.index,
      daqiBand r.index⟩), fd⟩

/-- Modelled from the spec: the degraded-but-valid snapshot synthesized
when primary and fallback both fail (spec section 4.3) — the requested
area, a null forecast date, an empty pollutant list, a summary marking
data unavailability. -/
def degradedSnapshot (area : String) : AirSnapshot :=
  ⟨area, 0, "No data available", [], none⟩

/-- Modelled from the spec: the air-quality adapter's fallback chain
(spec section 4.3 and the System Flow sequence diagram; the air service
module is not part of the shipped sources). A `some` argument is a
successfully fetched and parsed upstream document (its readings and
forecast date); `none` is any upstream failure. Primary first, then the
forecast fallback, then the degraded synthesis — never an upstream
error. -/
def airFetch (primary fallback : Option (List Reading × Option String))
    (area : String) : FetchOutcome AirSnapshot :=
  match primary with
  | some doc => .success (airTransform area doc.1 doc.2)
  | none =>
      match fallback with
      | some doc => .success (airTransform area doc.1 doc.2)
      | none => .success (degradedSnapshot area)

/-- Cache-key parameters of an air-quality query, from
`generate_key("air_quality", area=area)`. -/
def airKeyParams (area : Option String) : List (String × Option String) :=
  [("area", area)]

/-- Result of one frontend HTTP attempt: a response with a status code
and the optional `detail` field of its JSON body, or a rejected fetch
(network error) with its message. -/
inductive HttpResult where
  | response (status : Nat) (detail : Option String)
  | networkError (msg : String)
deriving DecidableEq, Repr

/-- The WHATWG `Response.ok` predicate: status in the 2xx range. -/
def isOkStatus (s : Nat) : Bool := decide (200 ≤ s) && decide (s < 300)

/-- From `api/client.ts`: `MAX_RETRIES = 3`. -/
def MAX_RETRIES : Nat := 3

/-- From `api/client.ts`: `RETRY_DELAY_MS = 1000`. -/
def RETRY_DELAY_MS : Nat := 1000

/-- From `api/client.ts`: the `ApiError` shape thrown by the fetchers. -/
structure ApiError where
  message : String
  status : Option Nat
deriving DecidableEq, Repr

/-- Observable behaviour of one fetcher run: the outcome, how many HTTP
requests were issued, and the total delay slept between attempts. -/
structure FetchRun (E : Type) where
  result : Except E Unit
  requests : Nat
  delayMs : Nat
deriving DecidableEq, Repr

/-- From `src/frontend/src/features/planning/api.ts`,
`fetchPlanningApplications`: one `fetch`, and on any non-ok response the
fixed error message, the status and body discarded; a rejected fetch
propagates its own error; no retry, no delay. The attempt transcript
`stream` gives the result of the n-th HTTP request. -/
def fetchPlanningApplications (stream : Nat → HttpResult) :
    FetchRun String :=
  match stream 0 with
  | .response s _ =>
      if isOkStatus s then ⟨.ok (), 1, 0⟩
      else ⟨.error "Failed to fetch planning applications", 1, 0⟩
  | .networkError m => ⟨.error m, 1, 0⟩

/-- The error message of a non-ok response in the bins and air fetchers:
the body's `detail` field if present, else `HTTP error {status}`. -/
def httpErrMsg (s : Nat) (d : Option String) : String :=
  match d with
  | some t => t
  | none => "HTTP error " ++ toString s

/-- From `src/frontend/src/features/bins/api.ts`: the body of the retry
loop of `fetchBinCollections`. `fuel` is the number of loop iterations
left, `attempt` the current index, `lastError` the accumulated network
error. Retries (with increasing delay) on a 5xx response or a network
error while attempts remain; a non-5xx failure throws immediately. -/
def binsAttempt (stream : Nat → HttpResult) :
    Nat → Nat → ApiError → FetchRun ApiError
  | 0, _, lastError => ⟨.error lastError, 0, 0⟩
  | fuel + 1, attempt, lastError =>
      match stream attempt with
      | .response s d =>
          if isOkStatus s then ⟨.ok (), 1, 0⟩
          else if 500 ≤ s ∧ attempt < MAX_RETRIES - 1 then
            let rr := binsAttempt stream fuel (attempt + 1) lastError
            ⟨rr.result, rr.requests + 1,
              rr.delayMs + RETRY_DELAY_MS * (attempt + 1)⟩
          else ⟨.error ⟨httpErrMsg s d, some s⟩, 1, 0⟩
      | .networkError m =>
          if attempt < MAX_RETRIES - 1 then
            let rr := binsAttempt stream fuel (attempt + 1) ⟨m, none⟩
            ⟨rr.result, rr.requests + 1,
              rr.delayMs + RETRY_DELAY_MS * (attempt + 1)⟩
          else ⟨.error ⟨m, none⟩, 1, 0⟩

/-- From `src/frontend/src/features/bins/api.ts`:
`fetchBinCollections` runs the loop for `MAX_RETRIES` attempts starting
from `lastError = {message: "Unknown error"}`. -/
def fetchBinCollections (stream : Nat → HttpResult) : FetchRun ApiError :=
  binsAttempt stream MAX_RETRIES 0 ⟨"Unknown error", none⟩

/-- From `src/frontend/src/features/air/api.ts`: the retry loop of
`fetchAirQuality`, textually duplicated from the bins fetcher. -/
def airAttempt (stream : Nat → HttpResult) :
    Nat → Nat → ApiError → FetchRun ApiError
  | 0, _, lastError => ⟨.error lastError, 0, 0⟩
  | fuel + 1, attempt, lastError =>
      match stream attempt with
      | .response s d =>
          if isOkStatus s then ⟨.ok (), 1, 0⟩
          else if 500 ≤ s ∧ attempt < MAX_RETRIES - 1 then
            let rr := airAttempt stream fuel (attempt + 1) lastError
            ⟨rr.result, rr.requests + 1,
              rr.delayMs + RETRY_DELAY_MS * (attempt + 1)⟩
          else ⟨.error ⟨httpErrMsg s d, some s⟩, 1, 0⟩
      | .networkError m =>
          if attempt < MAX_RETRIES - 1 then
            let rr := airAttempt stream fuel (attempt + 1) ⟨m, none⟩
            ⟨rr.result, rr.requests + 1,
              rr.delayMs + RETRY_DELAY_MS * (attempt + 1)⟩
          else ⟨.error ⟨m, none⟩, 1, 0⟩

/-- From `src/frontend/src/features/air/api.ts`: `fetchAirQuality` runs
the loop for `MAX_RETRIES` attempts. -/
def fetchAirQuality (stream : Nat → HttpResult) : FetchRun ApiError :=
  airAttempt stream MAX_RETRIES 0 ⟨"Unknown error", none⟩

/-- The fixed default region an absent `area` falls back to
(spec section 6; the docs' examples use Greater London). -/
def DEFAULT_AREA : String := "Greater London"

/-- The air-quality adapter over an optional query area: an absent area
defaults to the fixed region (spec section 6). -/
def airAdapter (primary fallback : Option (List Reading × Option String))
    (q : Option String) : FetchOutcome AirSnapshot :=
  airFetch primary fallback (q.getD DEFAULT_AREA)

/-- A concrete cache holding a live degraded air-quality snapshot. -/
def demoAirCache : Cache AirSnapshot :=
  [("air_quality:area=London", ⟨degradedSnapshot "London", 600, 0⟩)]

/-- A concrete cache whose only bins entry is already expired at time
10. -/
def expiredBinsCache : Cache String :=
  [("bins:postcode=X", ⟨"old", 5, 0⟩)]

/-- Two stations reporting NO2 at indices 2 and 4 for the same area. -/
def demoReadings : List Reading :=
  [⟨"NO2", "2.0", "ug/m3", 2⟩, ⟨"NO2", "4.0", "ug/m3", 4⟩]

/-- Characters with equal code points are equal. -/
theorem charToNat_inj {a b : Char} (h : a.toNat = b.toNat) : a = b :=
  Char.ext (UInt32.ext h)

/-- The code-point comparison is total. -/
theorem charListLe_total : ∀ a b : List Char,
    charListLe a b = true ∨ charListLe b a = true := by
  intro a
  induction a with
  | nil => intro b; exact Or.inl rfl
  | cons x xs ih =>
      intro b
      cases b with
      | nil => exact Or.inr rfl
      | cons y ys =>
          simp only [charListLe]
          by_cases hxy : x.toNat = y.toNat
          · rw [if_pos hxy, if_pos hxy.symm]
            exact ih ys
          · rw [if_neg hxy, if_neg (fun h => hxy h.symm)]
            rcases Nat.lt_or_ge x.toNat y.toNat with h | h
            · exact Or.inl (decide_eq_true h)
            · exact Or.inr (decide_eq_true (by omega))

/-- The code-point comparison is transitive. -/
theorem charListLe_trans : ∀ a b c : List Char,
    charListLe a b = true → charListLe b c = true → charListLe a c = true := by
  intro a
  induction a with
  | nil => intro b c _ _; rfl
  | cons x xs ih =>
      intro b c hab hbc
      cases b with
      | nil => exact absurd hab (by simp [charListLe])
      | cons y ys =>
          cases c with
          | nil => exact absurd hbc (by simp [charListLe])
          | cons z zs =>
              simp only [charListLe] at hab hbc ⊢
              by_cases hxy : x.toNat = y.toNat
              · by_cases hyz : y.toNat = z.toNat
                · rw [if_pos hxy] at hab
                  rw [if_pos hyz] at hbc
                  rw [if_pos (hxy.trans hyz)]
                  exact ih ys zs hab hbc
                · rw [if_pos hxy] at hab
                  rw [if_neg hyz] at hbc
                  have h2 := of_decide_eq_true hbc
                  have hxz : ¬ x.toNat = z.toNat := by omega
                  rw [if_neg hxz]
                  exact decide_eq_true (by omega)
              · by_cases hyz : y.toNat = z.toNat
                · rw [if_neg hxy] at hab
                  have h1 := of_decide_eq_true hab
                  have hxz : ¬ x.toNat = z.toNat := by omega
                  rw [if_neg hxz]
                  exact decide_eq_true (by omega)
                · rw [if_neg hxy] at hab
                  rw [if_neg hyz] at hbc
                  have h1 := of_decide_eq_true hab
                  have h2 := of_decide_eq_true hbc
                  have hxz : ¬ x.toNat = z.toNat := by omega
                  rw [if_neg hxz]
                  exact decide_eq_true (by omega)

/-- The code-point comparison is antisymmetric. -/
theorem charListLe_antisymm : ∀ a b : List Char,
    charListLe a b = true → charListLe b a = true → a = b := by
  intro a
  induction a with
  | nil =>
      intro b _ hba
      cases b with
      | nil => rfl
      | cons y ys => exact absurd hba (by simp [charListLe])
  | cons x xs ih =>
      intro b hab hba
      cases b with
      | nil => exact absurd hab (by simp [charListLe])
      | cons y ys =>
          simp only [charListLe] at hab hba
          by_cases hxy : x.toNat = y.toNat
          · rw [if_pos hxy] at hab
            rw [if_pos hxy.symm] at hba
            have hx : x = y := charToNat_inj hxy
            have hxs : xs = ys := ih ys hab hba
            rw [hx, hxs]
          · rw [if_neg hxy] at hab
            rw [if_neg (fun h => hxy h.symm)] at hba
            have h1 := of_decide_eq_true hab
            have h2 := of_decide_eq_true hba
            omega

/-- String comparison is antisymmetric. -/
theorem strLe_antisymm {a b : String} (hab : strLe a b = true)
    (hba : strLe b a = true) : a = b :=
  String.ext (charListLe_antisymm a.data b.data hab hba)

/-- Sorting is invariant under permutation of parameter lists with
distinct names. -/
theorem sortParams_eq_of_perm {l₁ l₂ : List (String × String)}
    (hp : l₁.Perm l₂) (hnd : (l₁.map Prod.fst).Nodup) :
    sortParams l₁ = sortParams l₂ := by
  haveI : IsTotal (String × String) paramLe :=
    ⟨fun p q => charListLe_total p.1.data q.1.data⟩
  haveI : IsTrans (String × String) paramLe :=
    ⟨fun p q r hpq hqr => charListLe_trans p.1.data q.1.data r.1.data hpq hqr⟩
  have hnd₂ : (l₂.map Prod.fst).Nodup := ((hp.map Prod.fst).nodup_iff).mp hnd
  have hperm : (sortParams l₁).Perm (sortParams l₂) :=
    (List.perm_insertionSort paramLe l₁).trans
      (hp.trans (List.perm_insertionSort paramLe l₂).symm)
  have hsorted : ∀ (l : List (String × String)), (l.map Prod.fst).Nodup →
      (sortParams l).Pairwise (fun p q => paramLe p q ∧ p.1 ≠ q.1) := by
    intro l hl
    have hs : (sortParams l).Pairwise paramLe :=
      List.sorted_insertionSort paramLe l
    have hnds : ((sortParams l).map Prod.fst).Nodup :=
      (((List.perm_insertionSort paramLe l).map Prod.fst).nodup_iff).mpr hl
    have hne : (sortParams l).Pairwise (fun p q => p.1 ≠ q.1) :=
      (List.pairwise_map).mp hnds
    exact hs.and hne
  haveI : IsAntisymm (String × String)
      (fun p q => paramLe p q ∧ p.1 ≠ q.1) :=
    ⟨fun p q h₁ h₂ => absurd (strLe_antisymm h₁.1 h₂.1) h₁.2⟩
  exact List.eq_of_perm_of_sorted hperm (hsorted l₁ hnd) (hsorted l₂ hnd₂)

/-- The name filter agrees with `List.filterMap`. -/
theorem presentParams_eq_filterMap (l : List (String × Option String)) :
    presentParams l = l.filterMap (fun p => p.2.map (fun v => (p.1, v))) := by
  induction l with
  | nil => rfl
  | cons p rest ih =>
      cases p with
      | mk k v =>
          cases v with
          | none => simpa [presentParams, List.filterMap_cons] using ih
          | some s => simpa [presentParams, List.filterMap_cons] using ih

/-- Filtering preserves permutation. -/
theorem presentParams_perm {l₁ l₂ : List (String × Option String)}
    (hp : l₁.Perm l₂) : (presentParams l₁).Perm (presentParams l₂) := by
  rw [presentParams_eq_filterMap, presentParams_eq_filterMap]
  exact hp.filterMap _

/-- The names of the present parameters form a sublist of all names. -/
theorem presentParams_fst_sublist : ∀ l : List (String × Option String),
    ((presentParams l).map Prod.fst).Sublist (l.map Prod.fst) := by
  intro l
  induction l with
  | nil => exact List.Sublist.refl _
  | cons p rest ih =>
      cases p with
      | mk k v =>
          cases v with
          | none => exact ih.cons k
          | some s => exact ih.cons₂ k

/-- Filtering distributes over concatenation. -/
theorem presentParams_append (l₁ l₂ : List (String × Option String)) :
    presentParams (l₁ ++ l₂) = presentParams l₁ ++ presentParams l₂ := by
  induction l₁ with
  | nil => rfl
  | cons p rest ih =>
      cases p with
      | mk k v => cases v <;> simp [presentParams, ih]

/-- After erasing a key, it is no longer found. -/
theorem assocFind_assocErase {α : Type} (c : List (String × α))
    (key : String) : assocFind (assocErase c key) key = none := by
  induction c with
  | nil => rfl
  | cons p rest ih =>
      cases p with
      | mk k a =>
          simp only [assocErase]
          by_cases hk : k = key
          · rw [if_pos hk]; exact ih
          · rw [if_neg hk]
            simp only [assocFind]
            rw [if_neg hk]
            exact ih

/-- A found worst reading carries the requested name. -/
theorem worstFor_name {n : String} : ∀ {l : List Reading} {w : Reading},
    worstFor n l = some w → w.name = n := by
  intro l
  induction l with
  | nil => intro w h; exact absurd h (by simp [worstFor])
  | cons r rest ih =>
      intro w h
      simp only [worstFor] at h
      cases hrest : worstFor n rest with
      | none =>
          rw [hrest] at h
          simp only [worstStep] at h
          by_cases hr : r.name = n
          · rw [if_pos hr] at h
            cases h
            exact hr
          · rw [if_neg hr] at h
            exact absurd h (by simp)
      | some q =>
          rw [hrest] at h
          simp only [worstStep] at h
          by_cases hr : r.name = n
          · rw [if_pos hr] at h
            by_cases hq : q.index ≥ r.index
            · rw [if_pos hq] at h
              cases h
              exact ih hrest
            · rw [if_neg hq] at h
              cases h
              exact hr
          · rw [if_neg hr] at h
            cases h
            exact ih hrest

/-- A found worst reading is one of the scanned readings. -/
theorem worstFor_mem {n : String} : ∀ {l : List Reading} {w : Reading},
    worstFor n l = some w → w ∈ l := by
  intro l
  induction l with
  | nil => intro w h; exact absurd h (by simp [worstFor])
  | cons r rest ih =>
      intro w h
      simp only [worstFor] at h
      cases hrest : worstFor n rest with
      | none =>
          rw [hrest] at h
          simp only [worstStep] at h
          by_cases hr : r.name = n
          · rw [if_pos hr] at h
            cases h
            exact List.mem_cons_self r rest
          · rw [if_neg hr] at h
            exact absurd h (by simp)
      | some q =>
          rw [hrest] at h
          simp only [worstStep] at h
          by_cases hr : r.name = n
          · rw [if_pos hr] at h
            by_cases hq : q.index ≥ r.index
            · rw [if_pos hq] at h
              cases h
              exact List.mem_cons_of_mem r (ih hrest)
            · rw [if_neg hq] at h
              cases h
              exact List.mem_cons_self r rest
          · rw [if_neg hr] at h
            cases h
            exact List.mem_cons_of_mem r (ih hrest)

/-- When no worst reading is found, no reading carries the name. -/
theorem worstFor_none {n : String} : ∀ {l : List Reading},
    worstFor n l = none → ∀ r ∈ l, r.name ≠ n := by
  intro l
  induction l with
  | nil => intro _ r hr; exact absurd hr (List.not_mem_nil r)
  | cons r rest ih =>
      intro h q hq
      simp only [worstFor] at h
      cases hrest : worstFor n rest with
      | none =>
          rw [hrest] at h
          simp only [worstStep] at h
          by_cases hr : r.name = n
          · rw [if_pos hr] at h
            exact absurd h (by simp)
          · rw [if_neg hr] at h
            rcases List.mem_cons.mp hq with hqr | hqrest
            · rw [hqr]; exact hr
            · exact ih hrest q hqrest
      | some q' =>
          rw [hrest] at h
          simp only [worstStep] at h
          by_cases hr : r.name = n
          · rw [if_pos hr] at h
            by_cases hi : q'.index ≥ r.index
            · rw [if_pos hi] at h
              exact absurd h (by simp)
            · rw [if_neg hi] at h
              exact absurd h (by simp)
          · rw [if_neg hr] at h
            exact absurd h (by simp)

/-- The worst reading dominates every reading with its name. -/
theorem worstFor_ge {n : String} : ∀ {l : List Reading} {w : Reading},
    worstFor n l = some w → ∀ q ∈ l, q.name = n → q.index ≤ w.index := by
  intro l
  induction l with
  | nil => intro w _ q hq; exact absurd hq (List.not_mem_nil q)
  | cons r rest ih =>
      intro w h q hq hqn
      simp only [worstFor] at h
      cases hrest : worstFor n rest with
      | none =>
          rw [hrest] at h
          simp only [worstStep] at h
          by_cases hr : r.name = n
          · rw [if_pos hr] at h
            cases h
            rcases List.mem_cons.mp hq with hqr | hqrest
            · rw [hqr]
            · exact absurd hqn (worstFor_none hrest q hqrest)
          · rw [if_neg hr] at h
            exact absurd h (by simp)
      | some p =>
          rw [hrest] at h
          simp only [worstStep] at h
          by_cases hr : r.name = n
          · rw [if_pos hr] at h
            by_cases hp : p.index ≥ r.index
            · rw [if_pos hp] at h
              cases h
              rcases List.mem_cons.mp hq with hqr | hqrest
              · rw [hqr]; exact hp
              · exact ih hrest q hqrest hqn
            · rw [if_neg hp] at h
              cases h
              rcases List.mem_cons.mp hq with hqr | hqrest
              · rw [hqr]
              · exact Nat.le_trans (ih hrest q hqrest hqn) (by omega)
          · rw [if_neg hr] at h
            cases h
            rcases List.mem_cons.mp hq with hqr | hqrest
            · exact absurd (hqr ▸ hqn) hr
            · exact ih hrest q hqrest hqn

/-- A reading with the requested name guarantees a worst reading. -/
theorem worstFor_isSome {n : String} {l : List Reading} {r : Reading}
    (hr : r ∈ l) (hn : r.name = n) : ∃ w, worstFor n l = some w := by
  cases h : worstFor n l with
  | none => exact absurd hn (worstFor_none h r hr)
  | some w => exact ⟨w, rfl⟩

/-- Every deduplicated entry is an original reading dominating all
readings of its name. -/
theorem mem_dedupReadings {l : List Reading} {p : Reading}
    (hp : p ∈ dedupReadings l) :
    p ∈ l ∧ ∀ q ∈ l, q.name = p.name → q.index ≤ p.index := by
  unfold dedupReadings at hp
  rcases List.mem_filterMap.mp hp with ⟨n, _, hw⟩
  have hname : p.name = n := worstFor_name hw
  refine ⟨worstFor_mem hw, fun q hq hqn => ?_⟩
  exact worstFor_ge hw q hq (hname ▸ hqn)

/-- Every original reading is dominated by a deduplicated entry of its
name. -/
theorem dedupReadings_cover {l : List Reading} {r : Reading} (hr : r ∈ l) :
    ∃ p ∈ dedupReadings l, p.name = r.name ∧ r.index ≤ p.index := by
  have hn : r.name ∈ (l.map (fun s => s.name)).dedup :=
    List.mem_dedup.mpr (List.mem_map_of_mem _ hr)
  obtain ⟨w, hw⟩ := worstFor_isSome hr rfl
  refine ⟨w, List.mem_filterMap.mpr ⟨r.name, hn, hw⟩, worstFor_name hw, ?_⟩
  exact worstFor_ge hw r hr rfl

/-- Worst readings found for distinct names are pairwise distinct. -/
theorem nodup_filterMap_worst (l : List Reading) :
    ∀ ns : List String, ns.Nodup →
      ((ns.filterMap (fun n => worstFor n l)).map
        (fun r => r.name)).Nodup := by
  intro ns
  induction ns with
  | nil => intro _; simp
  | cons n rest ih =>
      intro hnd
      rcases List.nodup_cons.mp hnd with ⟨hn, hrest⟩
      cases hw : worstFor n l with
      | none => simpa [List.filterMap_cons, hw] using ih hrest
      | some w =>
          simp only [List.filterMap_cons, hw, List.map_cons,
            List.nodup_cons]
          refine ⟨?_, ih hrest⟩
          intro hmem
          rcases List.mem_map.mp hmem with ⟨q, hq, hqname⟩
          rcases List.mem_filterMap.mp hq with ⟨m, hm, hqm⟩
          have hq1 : q.name = m := worstFor_name hqm
          have hw1 : w.name = n := worstFor_name hw
          rw [hw1, hq1] at hqname
          exact hn (hqname ▸ hm)

/-- Deduplicated pollutant names are distinct: at most one entry per
pollutant name. -/
theorem dedupReadings_names_nodup (l : List Reading) :
    ((dedupReadings l).map (fun r => r.name)).Nodup :=
  nodup_filterMap_worst l _ (List.nodup_dedup _)

/-- A member's index is bounded by the maximum index. -/
theorem le_maxIndexOf {l : List Reading} {r : Reading} (hr : r ∈ l) :
    r.index ≤ maxIndexOf l := by
  induction l with
  | nil => exact absurd hr (List.not_mem_nil r)
  | cons a rest ih =>
      rcases List.mem_cons.mp hr with h | h
      · rw [h]
        exact Nat.le_max_left _ _
      · exact Nat.le_trans (ih h) (Nat.le_max_right _ _)

/-- The maximum index is bounded by any common bound. -/
theorem maxIndexOf_le {l : List Reading} {n : Nat}
    (h : ∀ r ∈ l, r.index ≤ n) : maxIndexOf l ≤ n := by
  induction l with
  | nil => exact Nat.zero_le n
  | cons a rest ih =>
      have ha := h a (List.mem_cons_self a rest)
      have hrest := ih (fun r hr => h r (List.mem_cons_of_mem a hr))
      exact Nat.max_le.mpr ⟨ha, hrest⟩

/-- Deduplication preserves the maximum DAQI index. -/
theorem maxIndexOf_dedupReadings (l : List Reading) :
    maxIndexOf (dedupReadings l) = maxIndexOf l := by
  apply Nat.le_antisymm
  · exact maxIndexOf_le (fun p hp => le_maxIndexOf (mem_dedupReadings hp).1)
  · refine maxIndexOf_le (fun r hr => ?_)
    obtain ⟨p, hp, _, hle⟩ := dedupReadings_cover hr
    exact Nat.le_trans hle (le_maxIndexOf hp)

/-- C9: Under the default configuration, the per-domain cache TTL
constants satisfy bins TTL >= planning TTL >= air-quality TTL. -/
theorem C9_ttl_ordering :
    defaultSettings.CACHE_TTL_PLANNING ≤ defaultSettings.CACHE_TTL_BINS
    ∧ defaultSettings.CACHE_TTL_AIR_QUALITY
        ≤ defaultSettings.CACHE_TTL_PLANNING := by
  decide

/-- C8: For a bins query in which neither postcode nor uprn is present,
the bins endpoint fails with InvalidRequest, makes zero adapter calls,
performs zero cache reads, and leaves the cache unchanged. -/
theorem C8_bins_precondition {V : Type}
    (adapter : (Option String × Option String) → FetchOutcome V)
    (cache : Cache V) (now : Nat) :
    get_bin_collections adapter cache now none none
      = ⟨.error .invalidRequest, cache, 0, 0⟩ := by
  rfl

/-- C4: The key builder produces the same cache key regardless of the
order in which callers supply the (uniquely named) parameters. -/
theorem C4_key_order_independence (pfx : String)
    {l₁ l₂ : List (String × Option String)} (hp : l₁.Perm l₂)
    (hnd : (l₁.map Prod.fst).Nodup) :
    generate_key pfx l₁ = generate_key pfx l₂ := by
  unfold generate_key
  have h1 : sortParams (presentParams l₁) = sortParams (presentParams l₂) := by
    apply sortParams_eq_of_perm (presentParams_perm hp)
    exact (presentParams_fst_sublist l₁).nodup hnd
  rw [h1]

/-- C4 witness: `buildKey(domain, {a:1, b:2})` equals
`buildKey(domain, {b:2, a:1})`. -/
theorem C4_key_order_independence_witness :
    generate_key "bins" [("a", some "1"), ("b", some "2")]
      = generate_key "bins" [("b", some "2"), ("a", some "1")] :=
  C4_key_order_independence "bins" (by decide) (by decide)

/-- C5 counterexample: a parameter carrying an explicitly empty string
value is encoded as `b=` in the key rather than omitted, so the claimed
equality fails when `b` carries the empty value. -/
theorem C5_counterexample :
    generate_key "bins" [("a", some "1"), ("b", some "")]
      ≠ generate_key "bins" [("a", some "1")] := by
  decide

/-- C5 (amended): absent optional parameters — those carrying the `None`
unset sentinel — are omitted from the built cache key, so
`buildKey(domain, {a:1, b:absent})` equals `buildKey(domain, {a:1})`;
only `None` is filtered, a present empty-string value is encoded. -/
theorem C5_absent_param_omitted (pfx k : String)
    (l₁ l₂ : List (String × Option String)) :
    generate_key pfx (l₁ ++ (k, none) :: l₂) = generate_key pfx (l₁ ++ l₂) := by
  unfold generate_key
  have h1 : presentParams (l₁ ++ (k, none) :: l₂)
      = presentParams (l₁ ++ l₂) := by
    rw [presentParams_append, presentParams_append]
    rfl
  rw [h1]

/-- C1: For every domain (validator, key schema, adapter, TTL) and every
valid query, if the cache holds a live entry for the query's key then
getOrFetch returns that cached value, the cache is unchanged, and the
adapter is invoked zero times. -/
theorem C1_no_upstream_on_cache_hit {Q V : Type} (valid : Q → Bool)
    (pfx : String) (keyParams : Q → List (String × Option String))
    (adapter : Q → FetchOutcome V) (ttl : Nat) (cache c : Cache V)
    (now : Nat) (q : Q) (v : V)
    (hvalid : valid q = true)
    (hhit : cacheGet cache now (generate_key pfx (keyParams q)) = (some v, c)) :
    getOrFetch valid pfx keyParams adapter ttl cache now q
      = ⟨.ok v, c, 1, 0⟩ := by
  unfold getOrFetch
  rw [hvalid, if_pos rfl, hhit]

/-- C1 witness: a pre-populated live degraded air-quality entry is
served on a hit with zero adapter calls, even though the adapter would
fail if invoked. -/
theorem C1_no_upstream_on_cache_hit_witness :
    getOrFetch (fun _ => true) "air_quality" airKeyParams
      (fun _ => FetchOutcome.upstreamUnavailable) 600 demoAirCache 10
      (some "London")
    = ⟨.ok (degradedSnapshot "London"), demoAirCache, 1, 0⟩ :=
  C1_no_upstream_on_cache_hit (fun _ => true) "air_quality" airKeyParams
    (fun _ => FetchOutcome.upstreamUnavailable) 600 demoAirCache
    demoAirCache 10 (some "London") (degradedSnapshot "London") rfl (by rfl)

/-- C3 counterexample: at the expiry boundary `now = expiresAt` the
cache still returns the stored value although `now < expiresAt` fails,
so "returns the stored value iff present and now is strictly less than
expiresAt" is false as stated. -/
theorem C3_counterexample :
    (cacheGet [("k", CacheEntry.mk "v" 100 0)] 100 "k").1 = some "v"
    ∧ ¬ (100 < 100) :=
  ⟨rfl, by omega⟩

/-- C3 (amended): `get` returns the stored value iff an entry is present
and `now <= expiresAt` (the entry counts as expired only when
`now > expiresAt`, per `is_expired`); an expired entry is deleted as a
side effect, the lookup returns absent, and a subsequent get does not
resurrect the value; `get` is a total function — absence is a value, not
an error. -/
theorem C3_cacheGet_spec {V : Type} (c : Cache V) (now : Nat)
    (key : String) :
    (∀ v, (cacheGet c now key).1 = some v ↔
      ∃ e, assocFind c key = some e ∧ e.value = v ∧ now ≤ e.expires_at)
    ∧ (∀ e, assocFind c key = some e → e.expires_at < now →
        (cacheGet c now key).1 = none
        ∧ assocFind (cacheGet c now key).2 key = none
        ∧ (cacheGet (cacheGet c now key).2 now key).1 = none) := by
  cases hf : assocFind c key with
  | none =>
      have h1 : cacheGet c now key = (none, c) := by
        unfold cacheGet
        rw [hf]
      constructor
      · intro v
        rw [h1]
        constructor
        · intro h
          exact absurd h (by simp)
        · rintro ⟨e, he, _⟩
          exact absurd he (by simp)
      · intro e he
        exact absurd he (by simp)
  | some e0 =>
      by_cases hexp : e0.is_expired now = true
      · have hgt : e0.expires_at < now := by
          unfold CacheEntry.is_expired at hexp
          exact of_decide_eq_true hexp
        have h1 : cacheGet c now key = (none, assocErase c key) := by
          unfold cacheGet
          rw [hf]
          show (if e0.is_expired now = true then ((none : Option V), assocErase c key)
            else (some e0.value, c)) = _
          rw [if_pos hexp]
        constructor
        · intro v
          rw [h1]
          constructor
          · intro h
            exact absurd h (by simp)
          · rintro ⟨e, he, hv, hle⟩
            cases he
            omega
        · intro e he hlt
          rw [h1]
          refine ⟨rfl, assocFind_assocErase c key, ?_⟩
          have h2 : cacheGet (assocErase c key) now key
              = (none, assocErase c key) := by
            unfold cacheGet
            rw [assocFind_assocErase]
          rw [h2]
      · have hle : now ≤ e0.expires_at := by
          unfold CacheEntry.is_expired at hexp
          have := of_decide_eq_false (eq_false_of_ne_true hexp)
          omega
        have h1 : cacheGet c now key = (some e0.value, c) := by
          unfold cacheGet
          rw [hf]
          show (if e0.is_expired now = true then ((none : Option V), assocErase c key)
            else (some e0.value, c)) = _
          rw [if_neg hexp]
        constructor
        · intro v
          rw [h1]
          constructor
          · intro h
            have hv : e0.value = v := by
              injection h
            exact ⟨e0, rfl, hv, hle⟩
          · rintro ⟨e, he, hv, _⟩
            cases he
            rw [hv]
        · intro e he hlt
          cases he
          omega

/-- C3 witness: a live entry is returned at time 50; at time 200 the
expired entry is absent and deleted. -/
theorem C3_cacheGet_spec_witness :
    (cacheGet [("k", CacheEntry.mk "v" 100 0)] 50 "k").1 = some "v"
    ∧ (cacheGet [("k", CacheEntry.mk "v" 100 0)] 200 "k").1 = none
    ∧ assocFind (cacheGet [("k", CacheEntry.mk "v" 100 0)] 200 "k").2 "k"
        = none := by
  refine ⟨?_, ?_, ?_⟩
  · exact ((C3_cacheGet_spec [("k", CacheEntry.mk "v" 100 0)] 50 "k").1
      "v").mpr ⟨⟨"v", 100, 0⟩, rfl, rfl, by decide⟩
  · exact ((C3_cacheGet_spec [("k", CacheEntry.mk "v" 100 0)] 200 "k").2
      ⟨"v", 100, 0⟩ rfl (by decide)).1
  · exact ((C3_cacheGet_spec [("k", CacheEntry.mk "v" 100 0)] 200 "k").2
      ⟨"v", 100, 0⟩ rfl (by decide)).2.1

/-- C7 counterexample: on a cache miss caused by an expired entry, a
failing adapter leaves the cache different from its initial state (the
expired entry was lazily evicted by the lookup), so "the cache state is
unchanged" is false as stated. -/
theorem C7_counterexample :
    (get_bin_collections (fun _ => FetchOutcome.upstreamUnavailable)
        expiredBinsCache 10 (some "X") none).outcome
      = Except.error FetchError.upstreamUnavailable
    ∧ (get_bin_collections (fun _ => FetchOutcome.upstreamUnavailable)
        expiredBinsCache 10 (some "X") none).cache ≠ expiredBinsCache := by
  decide

/-- C7 (amended): for every domain and valid query, on a cache miss
getOrFetch invokes the adapter once; on Success it caches the result
under the query's key with the domain's TTL and returns it; on
UpstreamNotFound or UpstreamUnavailable it writes nothing and propagates
the typed failure — the cache after the call equals the cache after the
lookup, which is the initial cache when no entry was present (the lookup
itself may have lazily evicted an expired entry). -/
theorem C7_miss_fetch_policy {Q V : Type} (valid : Q → Bool) (pfx : String)
    (keyParams : Q → List (String × Option String))
    (adapter : Q → FetchOutcome V) (ttl : Nat) (cache : Cache V)
    (now : Nat) (q : Q)
    (hvalid : valid q = true)
    (hmiss : (cacheGet cache now (generate_key pfx (keyParams q))).1 = none) :
    (∀ v, adapter q = .success v →
      getOrFetch valid pfx keyParams adapter ttl cache now q
        = ⟨.ok v,
            cacheSet (cacheGet cache now (generate_key pfx (keyParams q))).2
              now (generate_key pfx (keyParams q)) v ttl, 1, 1⟩)
    ∧ (adapter q = .upstreamNotFound →
        getOrFetch valid pfx keyParams adapter ttl cache now q
          = ⟨.error .upstreamNotFound,
              (cacheGet cache now (generate_key pfx (keyParams q))).2, 1, 1⟩)
    ∧ (adapter q = .upstreamUnavailable →
        getOrFetch valid pfx keyParams adapter ttl cache now q
          = ⟨.error .upstreamUnavailable,
              (cacheGet cache now (generate_key pfx (keyParams q))).2, 1, 1⟩)
    ∧ (assocFind cache (generate_key pfx (keyParams q)) = none →
        (cacheGet cache now (generate_key pfx (keyParams q))).2 = cache) := by
  have hpair : cacheGet cache now (generate_key pfx (keyParams q))
      = (none, (cacheGet cache now (generate_key pfx (keyParams q))).2) := by
    rw [← hmiss]
  refine ⟨?_, ?_, ?_, ?_⟩
  · intro v hv
    unfold getOrFetch
    rw [hvalid, if_pos rfl, hpair, hv]
  · intro hv
    unfold getOrFetch
    rw [hvalid, if_pos rfl, hpair, hv]
  · intro hv
    unfold getOrFetch
    rw [hvalid, if_pos rfl, hpair, hv]
  · intro hnone
    unfold cacheGet
    rw [hnone]

/-- C7 witness: on an empty cache a not-found adapter propagates the
typed failure, caches nothing, and was invoked exactly once. -/
theorem C7_miss_fetch_policy_witness :
    getOrFetch binsValid "bins" binsKeyParams
      (fun _ => FetchOutcome.upstreamNotFound) 3600 ([] : Cache String) 0
      (some "X", none)
    = ⟨.error .upstreamNotFound, [], 1, 1⟩ :=
  (C7_miss_fetch_policy binsValid "bins" binsKeyParams
    (fun _ => FetchOutcome.upstreamNotFound) 3600 ([] : Cache String) 0
    (some "X", none) rfl (by rfl)).2.1 rfl

/-- C2: when both the primary and the fallback upstream calls fail, the
air-quality adapter still returns a Success carrying the requested area,
a null forecast date and an empty pollutant list; the adapter never
returns UpstreamUnavailable, and getOrFetch over the air adapter never
surfaces UpstreamUnavailable to its caller. -/
theorem C2_air_degrade_invariant :
    (∀ area, airFetch none none area = .success (degradedSnapshot area))
    ∧ (∀ area, (degradedSnapshot area).area = area
        ∧ (degradedSnapshot area).forecastDate = none
        ∧ (degradedSnapshot area).pollutants = [])
    ∧ (∀ primary fallback area,
        airFetch primary fallback area ≠ FetchOutcome.upstreamUnavailable)
    ∧ (∀ primary fallback (cache : Cache AirSnapshot) now q,
        (getOrFetch (fun _ => true) "air_quality" airKeyParams
          (airAdapter primary fallback) 600 cache now q).outcome
        ≠ Except.error FetchError.upstreamUnavailable) := by
  refine ⟨fun area => rfl, fun area => ⟨rfl, rfl, rfl⟩, ?_, ?_⟩
  · intro primary fallback area
    cases primary with
    | some doc => simp [airFetch]
    | none =>
        cases fallback with
        | some doc => simp [airFetch]
        | none => simp [airFetch]
  · intro primary fallback cache now q
    have hs : ∃ s, airAdapter primary fallback q = .success s := by
      cases primary with
      | some doc => exact ⟨_, rfl⟩
      | none =>
          cases fallback with
          | some doc => exact ⟨_, rfl⟩
          | none => exact ⟨_, rfl⟩
    obtain ⟨s, hs⟩ := hs
    unfold getOrFetch
    rw [if_pos rfl]
    cases hcg : cacheGet cache now (generate_key "air_quality" (airKeyParams q)) with
    | mk o c =>
        cases o with
        | some v => simp
        | none =>
            rw [hs]
            simp

/-- C2 witness: with both upstream documents failing, the degraded
Success is returned for the concrete area X and the aggregation outcome
is not UpstreamUnavailable. -/
theorem C2_air_degrade_invariant_witness :
    airFetch none none "X" = .success (degradedSnapshot "X")
    ∧ (getOrFetch (fun _ => true) "air_quality" airKeyParams
        (airAdapter none none) 600 ([] : Cache AirSnapshot) 0
        (some "X")).outcome
      ≠ Except.error FetchError.upstreamUnavailable :=
  ⟨C2_air_degrade_invariant.1 "X",
    C2_air_degrade_invariant.2.2.2 none none [] 0 (some "X")⟩

/-- C6: the air-quality transform collapses repeated pollutant entries
to a single highest-index reading per pollutant name (names are distinct
after deduplication, every kept entry is an original reading dominating
all readings of its name, and every reading is dominated by a kept entry
of its name), computes max_daqi as the maximum index over the
deduplicated set (which equals the maximum over all readings), derives
the summary and the per-pollutant bands by the table 1-3 Low,
4-6 Moderate, 7-9 High, 10 Very High, and in particular NO2 readings at
index 2 and index 4 collapse to one NO2 entry at index 4 with max_daqi 4
and summary Moderate. -/
theorem C6_pollutant_dedup (area : String) (l : List Reading)
    (fd : Option String) :
    (((airTransform area l fd).pollutants.map (fun p => p.name)).Nodup)
    ∧ (∀ p ∈ (airTransform area l fd).pollutants,
        (∃ r ∈ l, r.name = p.name ∧ r.index = p.index)
        ∧ ∀ q ∈ l, q.name = p.name → q.index ≤ p.index)
    ∧ (∀ r ∈ l, ∃ p ∈ (airTransform area l fd).pollutants,
        p.name = r.name ∧ r.index ≤ p.index)
    ∧ (airTransform area l fd).maxDaqi = maxIndexOf l
    ∧ (airTransform area l fd).summary = daqiBand (maxIndexOf l)
    ∧ (∀ p ∈ (airTransform area l fd).pollutants, p.band = daqiBand p.index)
    ∧ (daqiBand 1 = "Low" ∧ daqiBand 2 = "Low" ∧ daqiBand 3 = "Low"
        ∧ daqiBand 4 = "Moderate" ∧ daqiBand 5 = "Moderate"
        ∧ daqiBand 6 = "Moderate" ∧ daqiBand 7 = "High"
        ∧ daqiBand 8 = "High" ∧ daqiBand 9 = "High"
        ∧ daqiBand 10 = "Very High")
    ∧ ((airTransform "A" demoReadings none).pollutants.map
          (fun p => (p.name, p.index)) = [("NO2", 4)]
        ∧ (airTransform "A" demoReadings none).maxDaqi = 4
        ∧ (airTransform "A" demoReadings none).summary = "Moderate") := by
  refine ⟨?_, ?_, ?_, ?_, ?_, ?_, ?_, ?_⟩
  · show (((dedupReadings l).map (fun r =>
      (⟨r.name, r.value, r.units, r.index, daqiBand r.index⟩ : Pollutant))).map
        (fun p => p.name)).Nodup
    rw [List.map_map]
    exact dedupReadings_names_nodup l
  · intro p hp
    simp only [airTransform] at hp
    obtain ⟨r, hr, hg⟩ := List.mem_map.mp hp
    obtain ⟨hrl, hdom⟩ := mem_dedupReadings hr
    subst hg
    exact ⟨⟨r, hrl, rfl, rfl⟩, fun q hq hqn => hdom q hq hqn⟩
  · intro r hr
    obtain ⟨p', hp', hname, hle⟩ := dedupReadings_cover hr
    exact ⟨⟨p'.name, p'.value, p'.units, p'.index, daqiBand p'.index⟩,
      List.mem_map_of_mem _ hp', hname, hle⟩
  · show maxIndexOf (dedupReadings l) = maxIndexOf l
    exact maxIndexOf_dedupReadings l
  · show daqiBand (maxIndexOf (dedupReadings l)) = daqiBand (maxIndexOf l)
    rw [maxIndexOf_dedupReadings l]
  · intro p hp
    simp only [airTransform] at hp
    obtain ⟨r, _, hg⟩ := List.mem_map.mp hp
    subst hg
    rfl
  · exact ⟨rfl, rfl, rfl, rfl, rfl, rfl, rfl, rfl, rfl, rfl⟩
  · exact ⟨by decide, by decide, by decide⟩

/-- C6 witness: for the two concrete NO2 stations, the kept entry at
index 4 originates from the readings and dominates both, and the
transform's max DAQI equals the overall maximum. -/
theorem C6_pollutant_dedup_witness :
    ((∃ r ∈ demoReadings, r.name = "NO2" ∧ r.index = (4 : Nat))
      ∧ ∀ q ∈ demoReadings, q.name = "NO2" → q.index ≤ (4 : Nat))
    ∧ (airTransform "A" demoReadings none).maxDaqi
        = maxIndexOf demoReadings := by
  constructor
  · exact (C6_pollutant_dedup "A" demoReadings none).2.1
      ⟨"NO2", "4.0", "ug/m3", 4, "Moderate"⟩ (by decide)
  · exact (C6_pollutant_dedup "A" demoReadings none).2.2.2.1

/-- C10: the planning fetcher issues exactly one HTTP request and never
delays, for every transcript; on every non-2xx response it returns the
fixed error message, discarding the status code and body; unlike the
bins and air-quality fetchers, which issue 3 requests when every
attempt yields a 5xx response or a network error. -/
theorem C10_planning_no_retry :
    (∀ stream, (fetchPlanningApplications stream).requests = 1
      ∧ (fetchPlanningApplications stream).delayMs = 0)
    ∧ (∀ s d, isOkStatus s = false →
        fetchPlanningApplications (fun _ => HttpResult.response s d)
          = ⟨.error "Failed to fetch planning applications", 1, 0⟩)
    ∧ (∀ s d, 500 ≤ s →
        (fetchBinCollections (fun _ => HttpResult.response s d)).requests = 3)
    ∧ (∀ m,
        (fetchBinCollections (fun _ => HttpResult.networkError m)).requests = 3)
    ∧ (∀ s d, 500 ≤ s →
        (fetchAirQuality (fun _ => HttpResult.response s d)).requests = 3)
    ∧ (∀ m,
        (fetchAirQuality (fun _ => HttpResult.networkError m)).requests = 3) := by
  refine ⟨?_, ?_, ?_, ?_, ?_, ?_⟩
  · intro stream
    cases h : stream 0 with
    | response s d =>
        simp only [fetchPlanningApplications, h]
        by_cases hok : isOkStatus s = true
        · rw [if_pos hok]
          exact ⟨rfl, rfl⟩
        · rw [if_neg hok]
          exact ⟨rfl, rfl⟩
    | networkError m =>
        simp [fetchPlanningApplications, h]
  · intro s d hok
    have hok' : ¬ isOkStatus s = true := by
      rw [hok]
      simp
    simp only [fetchPlanningApplications]
    rw [if_neg hok']
  · intro s d hs
    have hok : isOkStatus s = false := by
      simp only [isOkStatus]
      have h3 : ¬ s < 300 := by omega
      simp [h3]
    simp [fetchBinCollections, binsAttempt, MAX_RETRIES, hok, hs]
  · intro m
    simp [fetchBinCollections, binsAttempt, MAX_RETRIES]
  · intro s d hs
    have hok : isOkStatus s = false := by
      simp only [isOkStatus]
      have h3 : ¬ s < 300 := by omega
      simp [h3]
    simp [fetchAirQuality, airAttempt, MAX_RETRIES, hok, hs]
  · intro m
    simp [fetchAirQuality, airAttempt, MAX_RETRIES]

/-- C10 witness: for a transcript of constant 503 responses, planning
makes one request with the fixed message while bins makes three; for
constant network errors the air fetcher makes three requests. -/
theorem C10_planning_no_retry_witness :
    (fetchPlanningApplications (fun _ => HttpResult.response 503 none)).requests
      = 1
    ∧ fetchPlanningApplications (fun _ => HttpResult.response 503 none)
        = ⟨.error "Failed to fetch planning applications", 1, 0⟩
    ∧ (fetchBinCollections (fun _ => HttpResult.response 503 none)).requests = 3
    ∧ (fetchAirQuality (fun _ => HttpResult.networkError "boom")).requests
        = 3 :=
  ⟨(C10_planning_no_retry.1 (fun _ => HttpResult.response 503 none)).1,
    C10_planning_no_retry.2.1 503 none (by decide),
    C10_planning_no_retry.2.2.1 503 none (by decide),
    C10_planning_no_retry.2.2.2.2.2 "boom"⟩

end LCDE
